import Mathlib

/-
Shallow embedding of src/src/echo/plugins/sdk_manager.py (class SDKPluginManager
and class SDKPluginBundle).

Modelling conventions:
- Python exceptions raised by plugin-supplied calls are modelled with
  `Except String`: a contract or agent is a record of the outcomes its calls
  produce (external, plugin-authored behaviour).
- Python `dict` (insertion-ordered, key-updating) is modelled by an
  association list with `dictInsert` / `dictGet` / `dictKeys` mirroring
  `d[k] = v`, `d.get(k)`, `list(d.keys())`.
- Python `set` is modelled by `Finset String` (`add` is `insert`,
  `discard` is `erase`).
- Logging calls are no-ops and are omitted.
- Filesystem discovery and package import (`discover_plugin_directories`,
  `load_plugin_packages`, `discover_plugins`) are external; they are
  abstracted into a `DiscoveryEnv`: a list of (package name, load succeeded)
  pairs and the list of contracts the SDK registry returns.
- Object identity (needed to state that a reloaded bundle is a freshly
  constructed object, not a reused one) is modelled by stamping every
  constructed bundle with a monotone allocation counter `next_id` carried in
  the manager state; the counter is ghost instrumentation, never read by the
  embedded logic.
- `_create_plugin_bundle` additionally returns the ordered trace of phase
  events it executed, ghost instrumentation used to state ordering claims.
- Numeric model-configuration fields (temperature, max_tokens) are modelled
  as `Int`; no claim depends on their arithmetic.
-/

namespace EchoCore

/-- Canonical model configuration shape (echo.llm.providers.ModelConfig),
as constructed by SDKPluginManager._create_model_config. -/
structure ModelConfig where
  provider : String
  model_name : String
  temperature : Int
  max_tokens : Int
  additional_params : List (String × String)
deriving DecidableEq

/-- Plugin-declared metadata returned by contract.get_metadata(). -/
structure PluginMetadata where
  name : String
  version : String
  description : String
  capabilities : List String
  model_config : ModelConfig
deriving DecidableEq

/-- Outcomes of the calls the manager makes on an agent instance.
get_tools(), bind_model(base), initialize() and create_agent_node() are
plugin-authored and may raise; each is an `Except` outcome. -/
structure Agent where
  get_tools : Except String (List String)
  bind_model : String → Except String String
  init_result : Except String Unit
  node_result : Except String String

/-- Outcomes of the calls the manager makes on a discovered SDK contract.
`cname` is the contract.name attribute (used in log messages; it may differ
from the metadata name). `struct_errors` is what
validate_plugin_structure(contract.plugin_class) returns, `dep_errors` what
contract.validate_dependencies() returns. `health_check` is the `healthy`
entry of contract.health_check(); `Except.error` models the call raising. -/
structure PluginContract where
  cname : String
  metadata : PluginMetadata
  struct_errors : List String
  dep_errors : List String
  create_agent : Except String Agent
  health_check : Except String Bool

/-- The external model backend: LLMModelFactory.create_base_model, which may
raise (failures surface from the backend). -/
structure LLMModelFactory where
  create_base_model : ModelConfig → Except String String

/-- SDKPluginBundle: the unit of successful construction. `tool_node` is the
ToolNode wrapping the tool list; `bid` is the ghost allocation stamp
modelling Python object identity. -/
structure SDKPluginBundle where
  contract : PluginContract
  metadata : PluginMetadata
  agent : Agent
  bound_model : String
  tools : List String
  tool_node : List String
  agent_node : String
  bid : Nat

/-- Insertion-ordered dict update, mirroring Python `d[k] = v`: an existing
key keeps its position and gets the new value; a new key is appended. -/
def dictInsert {α : Type} (k : String) (v : α) : List (String × α) → List (String × α)
  | [] => [(k, v)]
  | (k₁, v₁) :: rest => if k₁ = k then (k, v) :: rest else (k₁, v₁) :: dictInsert k v rest

/-- Python `d.get(k)`. -/
def dictGet {α : Type} (k : String) : List (String × α) → Option α
  | [] => none
  | (k₁, v₁) :: rest => if k₁ = k then some v₁ else dictGet k rest

/-- Python `list(d.keys())`. -/
def dictKeys {α : Type} (d : List (String × α)) : List String :=
  d.map Prod.fst

/-- The mutable collections of SDKPluginManager (__init__, lines 97-101),
plus the ghost allocation counter. -/
structure ManagerState where
  plugin_bundles : List (String × SDKPluginBundle)
  plugin_contracts : List (String × PluginContract)
  healthy_plugins : Finset String
  failed_plugins : Finset String
  next_id : Nat

/-- Manager state right after __init__: all collections empty. -/
def initState : ManagerState :=
  { plugin_bundles := []
    plugin_contracts := []
    healthy_plugins := ∅
    failed_plugins := ∅
    next_id := 0 }

/-- Ordered phase events of _create_plugin_bundle, ghost trace entries. -/
inductive PhaseEvent where
  | getMetadata
  | validateStructure
  | validateDependencies
  | createAgent
  | createModelConfig
  | createBaseModel
  | getTools
  | bindModel
  | initAgent
  | createBundle
deriving DecidableEq

/-- SDKPluginManager._create_model_config: pure copy of the metadata's
declared model configuration into the canonical ModelConfig shape. -/
def create_model_config (m : PluginMetadata) : ModelConfig :=
  { provider := m.model_config.provider
    model_name := m.model_config.model_name
    temperature := m.model_config.temperature
    max_tokens := m.model_config.max_tokens
    additional_params := m.model_config.additional_params }

/-- The fallible phases of _create_plugin_bundle in source order (lines
172-199): structural validation, dependency validation, create_agent(),
create_base_model(config), agent.get_tools(), agent.bind_model(base),
agent.initialize(), and bundle construction (which calls
agent.create_agent_node()). Returns the data the success branch registers,
or `none` if any phase fails. The manager state is not consulted by any
phase, so this is a pure function of the contract and the factory. -/
def constructParts (f : LLMModelFactory) (c : PluginContract) :
    Option (Agent × List String × String × String) :=
  if c.struct_errors ≠ [] then none
  else if c.dep_errors ≠ [] then none
  else match c.create_agent with
  | .error _ => none
  | .ok agent =>
    match f.create_base_model (create_model_config c.metadata) with
    | .error _ => none
    | .ok base =>
      match agent.get_tools with
      | .error _ => none
      | .ok tools =>
        match agent.bind_model base with
        | .error _ => none
        | .ok bound =>
          match agent.init_result with
          | .error _ => none
          | .ok _ =>
            match agent.node_result with
            | .error _ => none
            | .ok node => some (agent, tools, bound, node)

/-- The ordered trace of phase events _create_plugin_bundle executes on a
given contract, following the same branch structure as `constructParts`:
the trace stops at the first failing phase. -/
def constructTrace (f : LLMModelFactory) (c : PluginContract) : List PhaseEvent :=
  [PhaseEvent.getMetadata, PhaseEvent.validateStructure] ++
  (if c.struct_errors ≠ [] then []
   else [PhaseEvent.validateDependencies] ++
    (if c.dep_errors ≠ [] then []
     else [PhaseEvent.createAgent] ++
      match c.create_agent with
      | .error _ => []
      | .ok agent =>
        [PhaseEvent.createModelConfig, PhaseEvent.createBaseModel] ++
        match f.create_base_model (create_model_config c.metadata) with
        | .error _ => []
        | .ok base =>
          [PhaseEvent.getTools] ++
          match agent.get_tools with
          | .error _ => []
          | .ok _ =>
            [PhaseEvent.bindModel] ++
            match agent.bind_model base with
            | .error _ => []
            | .ok _ =>
              [PhaseEvent.initAgent] ++
              match agent.init_result with
              | .error _ => []
              | .ok _ => [PhaseEvent.createBundle]))

/-- Whether _create_plugin_bundle succeeds on this contract with this
factory (independent of the manager state). -/
def constructOk (f : LLMModelFactory) (c : PluginContract) : Bool :=
  (constructParts f c).isSome

/-- SDKPluginManager._create_plugin_bundle (lines 163-214). Every phase runs
inside one try/except: any failure is caught and the method returns False
with the state untouched; only the success branch (lines 199-210) registers
the bundle and the contract under the metadata name and adds the name to
healthy_plugins. The method itself never raises. The returned trace is the
ghost event list. -/
def create_plugin_bundle (f : LLMModelFactory) (st : ManagerState)
    (c : PluginContract) : Bool × ManagerState × List PhaseEvent :=
  match constructParts f c with
  | none => (false, st, constructTrace f c)
  | some (agent, tools, bound, node) =>
    let plugin_name := c.metadata.name
    let bundle : SDKPluginBundle :=
      { contract := c
        metadata := c.metadata
        agent := agent
        bound_model := bound
        tools := tools
        tool_node := tools
        agent_node := node
        bid := st.next_id }
    (true,
     { plugin_bundles := dictInsert plugin_name bundle st.plugin_bundles
       plugin_contracts := dictInsert plugin_name c st.plugin_contracts
       healthy_plugins := insert plugin_name st.healthy_plugins
       failed_plugins := st.failed_plugins
       next_id := st.next_id + 1 },
     constructTrace f c)

/-- The external inputs of one discovery pass: which plugin packages exist
and whether each loads, and the contract list discover_plugins() returns. -/
structure DiscoveryEnv where
  package_loads : List (String × Bool)
  contracts : List PluginContract

/-- SDKPluginManager.load_plugin_packages (lines 117-126): a package whose
package-import step raises is recorded in failed_plugins under its
directory name. -/
def load_plugin_packages (env : DiscoveryEnv) (st : ManagerState) : ManagerState :=
  env.package_loads.foldl
    (fun s p =>
      if p.2 then s
      else { s with failed_plugins := insert p.1 s.failed_plugins }) st

/-- The contract loop of discover_and_load_plugins (lines 156-161). The
except handler that would add contract.name to failed_plugins is
unreachable: _create_plugin_bundle catches every exception internally and
returns False, and the loop ignores that return value. -/
def load_contracts (f : LLMModelFactory) (st : ManagerState)
    (cs : List PluginContract) : ManagerState :=
  cs.foldl (fun s c => (create_plugin_bundle f s c).2.1) st

/-- SDKPluginManager.discover_and_load_plugins (lines 146-161). -/
def discover_and_load_plugins (env : DiscoveryEnv) (f : LLMModelFactory)
    (st : ManagerState) : ManagerState :=
  load_contracts f (load_plugin_packages env st) env.contracts

/-- SDKPluginManager.get_plugin_bundle (lines 231-233). -/
def get_plugin_bundle (st : ManagerState) (name : String) : Option SDKPluginBundle :=
  dictGet name st.plugin_bundles

/-- SDKPluginManager.get_available_plugins (lines 235-237). -/
def get_available_plugins (st : ManagerState) : List String :=
  dictKeys st.plugin_bundles

/-- One iteration of the perform_health_checks loop (lines 258-278): a
healthy result inserts into healthy_plugins and discards from
failed_plugins, an unhealthy result inserts into failed_plugins and
discards from healthy_plugins; a raising health_check() records False and
inserts into failed_plugins WITHOUT discarding from healthy_plugins (the
source's except branch, lines 275-278, has no discard). -/
def healthStep (acc : List (String × Bool) × ManagerState)
    (p : String × PluginContract) : List (String × Bool) × ManagerState :=
  let n := p.1
  match p.2.health_check with
  | .ok h =>
    if h then
      (dictInsert n true acc.1,
       { acc.2 with
         healthy_plugins := insert n acc.2.healthy_plugins
         failed_plugins := acc.2.failed_plugins.erase n })
    else
      (dictInsert n false acc.1,
       { acc.2 with
         failed_plugins := insert n acc.2.failed_plugins
         healthy_plugins := acc.2.healthy_plugins.erase n })
  | .error _ =>
    (dictInsert n false acc.1,
     { acc.2 with
       failed_plugins := insert n acc.2.failed_plugins })

/-- SDKPluginManager.perform_health_checks (lines 254-280): iterates all
registered contracts, returning the results dict and the new state. -/
def perform_health_checks (st : ManagerState) :
    List (String × Bool) × ManagerState :=
  st.plugin_contracts.foldl healthStep ([], st)

/-- A coordinator routing tool: its registered name, its description, and
the routing signal its invocation returns. -/
structure CoordTool where
  cname : String
  description : String
  invoke : String
deriving DecidableEq

/-- The goto tool make_goto_tool(name, desc) generates (lines 291-300): the
synthesized function goto_<name> returns the plugin's own name, baked into
the generated code at creation time. -/
def make_goto_tool (name desc : String) : CoordTool :=
  { cname := "goto_" ++ name
    description := "Route to " ++ name ++ " plugin for " ++ desc
    invoke := name }

/-- The terminal finalize tool (lines 305-308): invocation returns "final". -/
def finalize_tool : CoordTool :=
  { cname := "finalize"
    description := "Signal that the task is complete and provide final response."
    invoke := "final" }

/-- The goto-tool loop of get_coordinator_tools (lines 287-302): one goto
tool per listed plugin name, looking the plugin's contract up in
plugin_contracts for its description; a missing key raises KeyError,
modelled as Except.error, aborting the loop at the first missing name. -/
def goto_tools (ctr : List (String × PluginContract)) :
    List String → Except String (List CoordTool)
  | [] => Except.ok []
  | n :: ns =>
    match dictGet n ctr with
    | none => Except.error ("KeyError: " ++ n)
    | some c =>
      match goto_tools ctr ns with
      | Except.error e => Except.error e
      | Except.ok ts => Except.ok (make_goto_tool n c.metadata.description :: ts)

/-- SDKPluginManager.get_coordinator_tools (lines 282-311): one goto tool
per available plugin, then the finalize tool appended last. -/
def get_coordinator_tools (st : ManagerState) : Except String (List CoordTool) :=
  match goto_tools st.plugin_contracts (get_available_plugins st) with
  | Except.error e => Except.error e
  | Except.ok gotos => Except.ok (gotos ++ [finalize_tool])

/-- The clearing step of reload_plugins (lines 318-321): all four
collections emptied. The ghost allocation counter persists (clearing a
dict does not recycle object identities). -/
def clearedState (st : ManagerState) : ManagerState :=
  { plugin_bundles := []
    plugin_contracts := []
    healthy_plugins := ∅
    failed_plugins := ∅
    next_id := st.next_id }

/-- SDKPluginManager.reload_plugins (lines 313-327): clears all four
collections, then re-runs discovery/load and the health checks. -/
def reload_plugins (env : DiscoveryEnv) (f : LLMModelFactory)
    (st : ManagerState) : ManagerState :=
  (perform_health_checks (discover_and_load_plugins env f (clearedState st))).2

/-- First occurrence of `a` strictly precedes an occurrence of `b` in the
list (used to state phase-ordering claims over construction traces). -/
def beforeIn (a b : PhaseEvent) : List PhaseEvent → Bool
  | [] => false
  | x :: rest =>
    if x = a then rest.contains b
    else if x = b then false
    else beforeIn a b rest

/-- The complete phase-event trace of a fully successful construction, in
source order (lines 166-199): metadata, structural validation, dependency
validation, create_agent, model-config resolution, create_base_model,
get_tools, bind_model, agent initialization, bundle construction. -/
def fullPhaseTrace : List PhaseEvent :=
  [PhaseEvent.getMetadata, PhaseEvent.validateStructure,
   PhaseEvent.validateDependencies, PhaseEvent.createAgent,
   PhaseEvent.createModelConfig, PhaseEvent.createBaseModel,
   PhaseEvent.getTools, PhaseEvent.bindModel, PhaseEvent.initAgent,
   PhaseEvent.createBundle]

/-- Every registered bundle was built from a contract that passed both
structural and dependency validation. -/
def validatedBundles (st : ManagerState) : Prop :=
  ∀ n b, dictGet n st.plugin_bundles = some b →
    b.contract.struct_errors = [] ∧ b.contract.dep_errors = []

/-! Concrete fixtures used by counterexamples, divergence theorems and
witnesses. -/

/-- A fixed model configuration for fixture metadata. -/
def mcfg : ModelConfig :=
  { provider := "openai"
    model_name := "gpt"
    temperature := 0
    max_tokens := 100
    additional_params := [] }

/-- Fixture metadata with a given name, version and description. -/
def mkMeta (n ver desc : String) : PluginMetadata :=
  { name := n
    version := ver
    description := desc
    capabilities := ["cap"]
    model_config := mcfg }

/-- An agent all of whose calls succeed. -/
def goodAgent : Agent :=
  { get_tools := Except.ok ["t1", "t2"]
    bind_model := fun b => Except.ok ("bound:" ++ b)
    init_result := Except.ok ()
    node_result := Except.ok "node" }

/-- A model backend that always returns a handle named after the model. -/
def fixedFactory : LLMModelFactory :=
  { create_base_model := fun c => Except.ok c.model_name }

/-- A contract every construction phase of which succeeds. -/
def goodContract (n tag desc : String) : PluginContract :=
  { cname := tag
    metadata := mkMeta n "1.0" desc
    struct_errors := []
    dep_errors := []
    create_agent := Except.ok goodAgent
    health_check := Except.ok true }

/-- A contract whose validate_dependencies() returns a non-empty error
list (the spec's scenario input). -/
def depFailContract : PluginContract :=
  { cname := "authy"
    metadata := mkMeta "authy" "1.0" "auth plugin"
    struct_errors := []
    dep_errors := ["missing: auth-service"]
    create_agent := Except.ok goodAgent
    health_check := Except.ok true }

/-- A contract that constructs successfully but whose health_check()
raises. -/
def healthRaisesContract : PluginContract :=
  { cname := "p"
    metadata := mkMeta "p" "1.0" "a plugin"
    struct_errors := []
    dep_errors := []
    create_agent := Except.ok goodAgent
    health_check := Except.error "boom" }

/-- Discovery environment of the C1 divergence scenario: one contract whose
dependency validation fails. -/
def envC1 : DiscoveryEnv := { package_loads := [], contracts := [depFailContract] }

/-- Manager state after the C1 discovery pass. -/
def stC1 : ManagerState := discover_and_load_plugins envC1 fixedFactory initState

/-- Discovery environment of the C2 divergence scenario: one healthy-built
contract whose health_check() raises. -/
def envC2 : DiscoveryEnv := { package_loads := [], contracts := [healthRaisesContract] }

/-- Manager state after discovery then a health-check sweep in the C2
scenario. -/
def stC2 : ManagerState :=
  (perform_health_checks (discover_and_load_plugins envC2 fixedFactory initState)).2

/-- Discovery environment with three distinct well-behaved plugins. -/
def envC3 : DiscoveryEnv :=
  { package_loads := []
    contracts := [goodContract "alpha" "cA" "first duty",
                  goodContract "beta" "cB" "second duty",
                  goodContract "gamma" "cC" "third duty"] }

/-- Manager state after discovering the three plugins. -/
def stC3 : ManagerState := discover_and_load_plugins envC3 fixedFactory initState

/-- Discovery environment with one well-behaved plugin. -/
def envC4 : DiscoveryEnv :=
  { package_loads := [("pkg", true)], contracts := [goodContract "billing" "cBill" "bills"] }

/-- Manager state after discovering the single billing plugin. -/
def stC4 : ManagerState := discover_and_load_plugins envC4 fixedFactory initState

/-- The bundle the C4 pass registers for "billing". -/
def bC4 : SDKPluginBundle :=
  { contract := goodContract "billing" "cBill" "bills"
    metadata := mkMeta "billing" "1.0" "bills"
    agent := goodAgent
    bound_model := "bound:gpt"
    tools := ["t1", "t2"]
    tool_node := ["t1", "t2"]
    agent_node := "node"
    bid := 0 }

/-- State holding a first "billing" bundle, for the duplicate-name
counterexample. -/
def stC7a : ManagerState :=
  (create_plugin_bundle fixedFactory initState (goodContract "billing" "firstC" "d1")).2.1

/-- Discovery environment of the reload witness: one plugin named "r". -/
def envC9 : DiscoveryEnv := { package_loads := [], contracts := [goodContract "r" "cR" "reloadable"] }

/-- Pre-reload manager state of the reload witness. -/
def stC9 : ManagerState := discover_and_load_plugins envC9 fixedFactory initState

/-! Association-list (Python dict) lemmas. -/

theorem dictGet_insert_self {α : Type} (k : String) (v : α) (d : List (String × α)) :
    dictGet k (dictInsert k v d) = some v := by
  induction d with
  | nil => simp [dictInsert, dictGet]
  | cons p rest ih =>
    by_cases h : p.1 = k
    · simp [dictInsert, dictGet, h]
    · simp [dictInsert, dictGet, h, ih]

theorem dictGet_insert_ne {α : Type} {k n : String} (v : α) (d : List (String × α))
    (h : n ≠ k) : dictGet n (dictInsert k v d) = dictGet n d := by
  have hk : ¬ (k = n) := fun he => h he.symm
  induction d with
  | nil => simp [dictInsert, dictGet, hk]
  | cons p rest ih =>
    by_cases hp : p.1 = k
    · subst hp
      simp [dictInsert, dictGet, hk]
    · by_cases hn : p.1 = n
      · simp [dictInsert, dictGet, hp, hn, h]
      · simp [dictInsert, dictGet, hp, hn, ih]

theorem dictKeys_insert {α : Type} (k : String) (v : α) (d : List (String × α)) :
    dictKeys (dictInsert k v d) =
      if k ∈ dictKeys d then dictKeys d else dictKeys d ++ [k] := by
  induction d with
  | nil => simp [dictInsert, dictKeys]
  | cons p rest ih =>
    by_cases hp : p.1 = k
    · subst hp
      simp [dictInsert, dictKeys]
    · have hk2 : ¬ (k = p.1) := fun he => hp he.symm
      simp [dictInsert, dictKeys, hp] at ih ⊢
      rw [ih]
      by_cases hk : k ∈ List.map Prod.fst rest
      · simp [hk, hk2]
      · simp [hk, hk2]

theorem mem_dictKeys_insert {α : Type} {n k : String} (v : α) (d : List (String × α)) :
    n ∈ dictKeys (dictInsert k v d) ↔ n = k ∨ n ∈ dictKeys d := by
  rw [dictKeys_insert]
  by_cases hk : k ∈ dictKeys d
  · constructor
    · intro h
      rw [if_pos hk] at h
      exact Or.inr h
    · intro h
      rw [if_pos hk]
      rcases h with h | h
      · rw [h]; exact hk
      · exact h
  · rw [if_neg hk]
    simp [or_comm]

theorem nodup_dictKeys_insert {α : Type} (k : String) (v : α) (d : List (String × α))
    (h : (dictKeys d).Nodup) : (dictKeys (dictInsert k v d)).Nodup := by
  rw [dictKeys_insert]
  by_cases hk : k ∈ dictKeys d
  · simpa [hk] using h
  · simp [hk, List.nodup_append, h, hk]

theorem mem_dictInsert {α : Type} {p : String × α} {k : String} {v : α}
    {d : List (String × α)} (h : p ∈ dictInsert k v d) : p = (k, v) ∨ p ∈ d := by
  induction d with
  | nil => simpa [dictInsert] using h
  | cons q rest ih =>
    by_cases hq : q.1 = k
    · simp [dictInsert, hq] at h
      rcases h with h | h
      · exact Or.inl h
      · exact Or.inr (List.mem_cons_of_mem _ h)
    · simp [dictInsert, hq] at h
      rcases h with h | h
      · exact Or.inr (by simp [h])
      · rcases ih h with h₁ | h₁
        · exact Or.inl h₁
        · exact Or.inr (List.mem_cons_of_mem _ h₁)

/-! Characterization of _create_plugin_bundle. -/

theorem create_fail {f : LLMModelFactory} {c : PluginContract}
    (st : ManagerState) (h : constructOk f c = false) :
    create_plugin_bundle f st c = (false, st, constructTrace f c) := by
  unfold constructOk at h
  unfold create_plugin_bundle
  match hp : constructParts f c with
  | none => rfl
  | some q => rw [hp] at h; simp at h

theorem create_ok {f : LLMModelFactory} {c : PluginContract}
    (st : ManagerState) (h : constructOk f c = true) :
    ∃ bdl : SDKPluginBundle, bdl.contract = c ∧ bdl.metadata = c.metadata ∧
      bdl.bid = st.next_id ∧
      create_plugin_bundle f st c =
        (true,
         { plugin_bundles := dictInsert c.metadata.name bdl st.plugin_bundles
           plugin_contracts := dictInsert c.metadata.name c st.plugin_contracts
           healthy_plugins := insert c.metadata.name st.healthy_plugins
           failed_plugins := st.failed_plugins
           next_id := st.next_id + 1 },
         constructTrace f c) := by
  unfold constructOk at h
  unfold create_plugin_bundle
  match hp : constructParts f c with
  | none => rw [hp] at h; simp at h
  | some (agent, tools, bound, node) =>
    exact ⟨{ contract := c, metadata := c.metadata, agent := agent,
             bound_model := bound, tools := tools, tool_node := tools,
             agent_node := node, bid := st.next_id },
           rfl, rfl, rfl, rfl⟩

theorem create_fst (f : LLMModelFactory) (st : ManagerState) (c : PluginContract) :
    (create_plugin_bundle f st c).1 = constructOk f c := by
  unfold create_plugin_bundle constructOk
  match hp : constructParts f c with
  | none => rfl
  | some q => rfl

theorem constructOk_validations {f : LLMModelFactory} {c : PluginContract}
    (h : constructOk f c = true) :
    c.struct_errors = [] ∧ c.dep_errors = [] := by
  unfold constructOk constructParts at h
  by_cases h₁ : c.struct_errors = []
  · by_cases h₂ : c.dep_errors = []
    · exact ⟨h₁, h₂⟩
    · simp [h₁, h₂] at h
  · simp [h₁] at h

theorem dictGet_insert_cases {α : Type} {n k : String} {v b : α}
    {d : List (String × α)} (h : dictGet n (dictInsert k v d) = some b) :
    (n = k ∧ b = v) ∨ dictGet n d = some b := by
  by_cases hk : n = k
  · subst hk
    rw [dictGet_insert_self] at h
    exact Or.inl ⟨rfl, (Option.some_inj.mp h).symm⟩
  · rw [dictGet_insert_ne _ _ hk] at h
    exact Or.inr h

/-! Lemmas about the discovery-pass fold. -/

theorem load_contracts_nil (f : LLMModelFactory) (st : ManagerState) :
    load_contracts f st [] = st := rfl

theorem load_contracts_cons (f : LLMModelFactory) (st : ManagerState)
    (c : PluginContract) (cs : List PluginContract) :
    load_contracts f st (c :: cs) =
      load_contracts f ((create_plugin_bundle f st c).2.1) cs := rfl

theorem load_contracts_append (f : LLMModelFactory) (st : ManagerState)
    (l₁ l₂ : List PluginContract) :
    load_contracts f st (l₁ ++ l₂) = load_contracts f (load_contracts f st l₁) l₂ := by
  unfold load_contracts
  rw [List.foldl_append]

theorem create_keys_monotone {f : LLMModelFactory} {c : PluginContract}
    {st : ManagerState} {n : String} (h : n ∈ dictKeys st.plugin_bundles) :
    n ∈ dictKeys (create_plugin_bundle f st c).2.1.plugin_bundles := by
  rcases Bool.eq_false_or_eq_true (constructOk f c) with hok | hok
  · rcases create_ok st hok with ⟨bdl, _, _, _, heq⟩
    rw [heq]
    exact (mem_dictKeys_insert _ _).2 (Or.inr h)
  · rw [create_fail st hok]
    exact h

theorem load_contracts_keys_monotone {f : LLMModelFactory} {n : String}
    (cs : List PluginContract) :
    ∀ st : ManagerState, n ∈ dictKeys st.plugin_bundles →
      n ∈ dictKeys (load_contracts f st cs).plugin_bundles := by
  induction cs with
  | nil => intro st h; exact h
  | cons c rest ih =>
    intro st h
    rw [load_contracts_cons]
    exact ih _ (create_keys_monotone h)

theorem create_keys_nodup {f : LLMModelFactory} {c : PluginContract}
    {st : ManagerState} (h : (dictKeys st.plugin_bundles).Nodup) :
    (dictKeys (create_plugin_bundle f st c).2.1.plugin_bundles).Nodup := by
  rcases Bool.eq_false_or_eq_true (constructOk f c) with hok | hok
  · rcases create_ok st hok with ⟨bdl, _, _, _, heq⟩
    rw [heq]
    exact nodup_dictKeys_insert _ _ _ h
  · rw [create_fail st hok]
    exact h

theorem load_contracts_keys_nodup {f : LLMModelFactory} (cs : List PluginContract) :
    ∀ st : ManagerState, (dictKeys st.plugin_bundles).Nodup →
      (dictKeys (load_contracts f st cs).plugin_bundles).Nodup := by
  induction cs with
  | nil => intro st h; exact h
  | cons c rest ih =>
    intro st h
    rw [load_contracts_cons]
    exact ih _ (create_keys_nodup h)

theorem create_get_ne {f : LLMModelFactory} {c : PluginContract}
    {st : ManagerState} {n : String} (h : c.metadata.name ≠ n) :
    dictGet n (create_plugin_bundle f st c).2.1.plugin_bundles =
      dictGet n st.plugin_bundles := by
  rcases Bool.eq_false_or_eq_true (constructOk f c) with hok | hok
  · rcases create_ok st hok with ⟨bdl, _, _, _, heq⟩
    rw [heq]
    exact dictGet_insert_ne _ _ (fun he => h he.symm)
  · rw [create_fail st hok]

theorem load_contracts_get_ne {f : LLMModelFactory} {n : String}
    (cs : List PluginContract) (hall : ∀ c ∈ cs, c.metadata.name ≠ n) :
    ∀ st : ManagerState,
      dictGet n (load_contracts f st cs).plugin_bundles =
        dictGet n st.plugin_bundles := by
  induction cs with
  | nil => intro st; rfl
  | cons c rest ih =>
    intro st
    rw [load_contracts_cons]
    rw [ih (fun x hx => hall x (List.mem_cons_of_mem _ hx)) _]
    exact create_get_ne (hall c (List.mem_cons_self _ _))

/-! Projection lemmas: load_plugin_packages touches only failed_plugins,
perform_health_checks never touches bundles, contracts or the counter. -/

theorem load_packages_proj (env : DiscoveryEnv) (st : ManagerState) :
    (load_plugin_packages env st).plugin_bundles = st.plugin_bundles ∧
    (load_plugin_packages env st).plugin_contracts = st.plugin_contracts ∧
    (load_plugin_packages env st).healthy_plugins = st.healthy_plugins ∧
    (load_plugin_packages env st).next_id = st.next_id := by
  unfold load_plugin_packages
  generalize env.package_loads = ps
  induction ps generalizing st with
  | nil => exact ⟨rfl, rfl, rfl, rfl⟩
  | cons p rest ih =>
    rw [List.foldl_cons]
    by_cases hp : p.2
    · simpa [hp] using ih _
    · simpa [hp] using ih _

theorem healthStep_proj (acc : List (String × Bool) × ManagerState)
    (p : String × PluginContract) :
    (healthStep acc p).2.plugin_bundles = acc.2.plugin_bundles ∧
    (healthStep acc p).2.plugin_contracts = acc.2.plugin_contracts ∧
    (healthStep acc p).2.next_id = acc.2.next_id := by
  unfold healthStep
  rcases hh : p.2.health_check with e | b
  · exact ⟨rfl, rfl, rfl⟩
  · cases b
    · exact ⟨rfl, rfl, rfl⟩
    · exact ⟨rfl, rfl, rfl⟩

theorem healthFold_proj (l : List (String × PluginContract)) :
    ∀ acc : List (String × Bool) × ManagerState,
      ((l.foldl healthStep acc).2).plugin_bundles = acc.2.plugin_bundles ∧
      ((l.foldl healthStep acc).2).plugin_contracts = acc.2.plugin_contracts ∧
      ((l.foldl healthStep acc).2).next_id = acc.2.next_id := by
  induction l with
  | nil => intro acc; exact ⟨rfl, rfl, rfl⟩
  | cons p rest ih =>
    intro acc
    rw [List.foldl_cons]
    have h₁ := healthStep_proj acc p
    have h₂ := ih (healthStep acc p)
    exact ⟨h₂.1.trans h₁.1, h₂.2.1.trans h₁.2.1, h₂.2.2.trans h₁.2.2⟩

theorem perform_health_checks_proj (st : ManagerState) :
    (perform_health_checks st).2.plugin_bundles = st.plugin_bundles ∧
    (perform_health_checks st).2.plugin_contracts = st.plugin_contracts ∧
    (perform_health_checks st).2.next_id = st.next_id :=
  healthFold_proj st.plugin_contracts ([], st)

theorem mem_dictKeys_of_get {α : Type} {n : String} {d : List (String × α)} {b : α}
    (h : dictGet n d = some b) : n ∈ dictKeys d := by
  induction d with
  | nil => simp [dictGet] at h
  | cons p rest ih =>
    by_cases hp : p.1 = n
    · show n ∈ p.1 :: dictKeys rest
      rw [hp]
      exact List.mem_cons_self _ _
    · simp [dictGet, hp] at h
      show n ∈ p.1 :: dictKeys rest
      exact List.mem_cons_of_mem _ (ih h)

theorem create_validated {f : LLMModelFactory} {c : PluginContract}
    {st : ManagerState} (h : validatedBundles st) :
    validatedBundles (create_plugin_bundle f st c).2.1 := by
  rcases Bool.eq_false_or_eq_true (constructOk f c) with hok | hok
  · rcases create_ok st hok with ⟨bdl, hbc, _, _, heq⟩
    intro n b hb
    rw [heq] at hb
    rcases dictGet_insert_cases hb with ⟨_, hbv⟩ | hmem
    · rw [hbv, hbc]
      exact constructOk_validations hok
    · exact h n b hmem
  · rw [create_fail st hok]
    exact h

theorem load_contracts_validated {f : LLMModelFactory} (cs : List PluginContract) :
    ∀ st : ManagerState, validatedBundles st →
      validatedBundles (load_contracts f st cs) := by
  induction cs with
  | nil => intro st h; exact h
  | cons c rest ih =>
    intro st h
    rw [load_contracts_cons]
    exact ih _ (create_validated h)

theorem goto_tools_ok (ctr : List (String × PluginContract)) (ns : List String)
    (h : ∀ n ∈ ns, (dictGet n ctr).isSome = true) :
    ∃ ts, goto_tools ctr ns = Except.ok ts ∧ ts.map CoordTool.invoke = ns := by
  induction ns with
  | nil => exact ⟨[], rfl, rfl⟩
  | cons n rest ih =>
    have hn := h n (List.mem_cons_self _ _)
    rcases hget : dictGet n ctr with _ | c
    · rw [hget] at hn
      simp at hn
    · rcases ih (fun m hm => h m (List.mem_cons_of_mem _ hm)) with ⟨ts, hts, hmap⟩
      refine ⟨make_goto_tool n c.metadata.description :: ts, ?_, ?_⟩
      · simp [goto_tools, hget, hts]
      · simp [make_goto_tool, hmap]

theorem create_trace (f : LLMModelFactory) (st : ManagerState) (c : PluginContract) :
    (create_plugin_bundle f st c).2.2 = constructTrace f c := by
  cases hq : constructParts f c <;> simp [create_plugin_bundle, hq]

theorem constructTrace_of_ok {f : LLMModelFactory} {c : PluginContract}
    (h : constructOk f c = true) : constructTrace f c = fullPhaseTrace := by
  unfold constructOk constructParts at h
  unfold constructTrace fullPhaseTrace
  repeat' split at h
  all_goals simp_all

theorem create_nextid_mono (f : LLMModelFactory) (st : ManagerState)
    (c : PluginContract) : st.next_id ≤ (create_plugin_bundle f st c).2.1.next_id := by
  rcases Bool.eq_false_or_eq_true (constructOk f c) with hok | hok
  · rcases create_ok st hok with ⟨bdl, _, _, _, heq⟩
    rw [heq]
    exact Nat.le_succ _
  · rw [create_fail st hok]

theorem load_contracts_nextid_mono {f : LLMModelFactory} (cs : List PluginContract) :
    ∀ st : ManagerState, st.next_id ≤ (load_contracts f st cs).next_id := by
  induction cs with
  | nil => intro st; exact Nat.le_refl _
  | cons c rest ih =>
    intro st
    rw [load_contracts_cons]
    exact Nat.le_trans (create_nextid_mono f st c) (ih _)

theorem create_bid_lb {f : LLMModelFactory} {c : PluginContract} {st : ManagerState} :
    ∀ p ∈ (create_plugin_bundle f st c).2.1.plugin_bundles,
      p ∈ st.plugin_bundles ∨ st.next_id ≤ p.2.bid := by
  rcases Bool.eq_false_or_eq_true (constructOk f c) with hok | hok
  · rcases create_ok st hok with ⟨bdl, _, _, hbid, heq⟩
    intro p hp
    rw [heq] at hp
    rcases mem_dictInsert hp with hpv | hpm
    · right
      rw [hpv]
      exact Nat.le_of_eq hbid.symm
    · exact Or.inl hpm
  · rw [create_fail st hok]
    intro p hp
    exact Or.inl hp

theorem load_contracts_bid_lb {f : LLMModelFactory} (cs : List PluginContract) :
    ∀ st : ManagerState, ∀ p ∈ (load_contracts f st cs).plugin_bundles,
      p ∈ st.plugin_bundles ∨ st.next_id ≤ p.2.bid := by
  induction cs with
  | nil => intro st p hp; exact Or.inl hp
  | cons c rest ih =>
    intro st p hp
    rw [load_contracts_cons] at hp
    rcases ih _ p hp with hmem | hle
    · rcases create_bid_lb p hmem with hmem₁ | hle₁
      · exact Or.inl hmem₁
      · exact Or.inr hle₁
    · exact Or.inr (Nat.le_trans (create_nextid_mono f st c) hle)

theorem load_contracts_mem_of_ok {f : LLMModelFactory} (cs : List PluginContract) :
    ∀ st : ManagerState, ∀ b ∈ cs, constructOk f b = true →
      b.metadata.name ∈ dictKeys (load_contracts f st cs).plugin_bundles := by
  induction cs with
  | nil => intro st b hb; simp at hb
  | cons c rest ih =>
    intro st b hb hok
    rcases List.mem_cons.mp hb with hbc | hbr
    · subst hbc
      rw [load_contracts_cons]
      rcases create_ok st hok with ⟨bdl, _, _, _, heq⟩
      apply load_contracts_keys_monotone
      rw [heq]
      exact (mem_dictKeys_insert _ _).2 (Or.inl rfl)
    · rw [load_contracts_cons]
      exact ih _ b hbr hok

/-! Claim theorems. -/

/-- C1: the claim states that a contract whose construction fails (here,
validate_dependencies() returning a non-empty list) ends with its name in
failed_plugins after the discovery pass. The code diverges: after the pass
over the single dependency-failing contract named "authy", failed_plugins
does not contain "authy" (the plugin is left in the unknown state, absent
from both health sets), though it is also absent from
get_available_plugins as the claim expects. -/
theorem C1_code_divergence :
    "authy" ∉ stC1.failed_plugins ∧ "authy" ∉ get_available_plugins stC1 := by
  decide

/-- C2: the claim states that a name never appears in healthy_plugins and
failed_plugins simultaneously, in particular after perform_health_checks
when a health_check() raises. The code diverges: after discovering the
successfully-built plugin "p" (which makes it healthy) and then running a
health-check sweep in which p's health_check() raises, "p" is a member of
both sets. -/
theorem C2_code_divergence :
    "p" ∈ stC2.healthy_plugins ∧ "p" ∈ stC2.failed_plugins := by
  decide

/-- C10: bundle construction is atomic on failure: whenever any phase of
_create_plugin_bundle fails (constructOk is false exactly when structural
validation returns errors, dependency validation returns errors, or
create_agent, create_base_model, get_tools, bind_model, initialization or
bundle construction raises), the call returns False and leaves all four
manager collections exactly as they were. -/
theorem C10_atomic_failure (f : LLMModelFactory) (st : ManagerState)
    (c : PluginContract) (h : constructOk f c = false) :
    (create_plugin_bundle f st c).1 = false ∧
    (create_plugin_bundle f st c).2.1.plugin_bundles = st.plugin_bundles ∧
    (create_plugin_bundle f st c).2.1.plugin_contracts = st.plugin_contracts ∧
    (create_plugin_bundle f st c).2.1.healthy_plugins = st.healthy_plugins ∧
    (create_plugin_bundle f st c).2.1.failed_plugins = st.failed_plugins := by
  rw [create_fail st h]
  exact ⟨rfl, rfl, rfl, rfl, rfl⟩

/-- C10 witness: the atomicity theorem applied to the concrete
dependency-failing contract on the fresh manager state. -/
theorem C10_atomic_failure_witness :
    constructOk fixedFactory depFailContract = false ∧
    ((create_plugin_bundle fixedFactory initState depFailContract).1 = false ∧
     (create_plugin_bundle fixedFactory initState depFailContract).2.1.plugin_bundles =
       initState.plugin_bundles ∧
     (create_plugin_bundle fixedFactory initState depFailContract).2.1.plugin_contracts =
       initState.plugin_contracts ∧
     (create_plugin_bundle fixedFactory initState depFailContract).2.1.healthy_plugins =
       initState.healthy_plugins ∧
     (create_plugin_bundle fixedFactory initState depFailContract).2.1.failed_plugins =
       initState.failed_plugins) :=
  ⟨by decide, C10_atomic_failure fixedFactory initState depFailContract (by decide)⟩

/-- C4: a discovered contract that fails structural or dependency
validation never appears in get_available_plugins: every bundle registered
after a discovery pass from the fresh manager state was built from a
contract whose structural validation returned no errors and whose
validate_dependencies() returned the empty list, so a validation-failing
contract's bundle is never the one registered under any name. -/
theorem C4_validation_never_available (env : DiscoveryEnv) (f : LLMModelFactory)
    (n : String) (b : SDKPluginBundle)
    (h : get_plugin_bundle (discover_and_load_plugins env f initState) n = some b) :
    b.contract.struct_errors = [] ∧ b.contract.dep_errors = [] := by
  have h₀ : validatedBundles initState := by
    intro m b₁ hb
    simp [initState, dictGet] at hb
  have h₁ : validatedBundles (load_plugin_packages env initState) := by
    intro m b₁ hb
    rw [(load_packages_proj env initState).1] at hb
    exact h₀ m b₁ hb
  exact load_contracts_validated env.contracts _ h₁ n b h

/-- C4 witness: the theorem applied to the concrete one-plugin pass, whose
registered "billing" bundle indeed passed both validations. -/
theorem C4_validation_never_available_witness :
    get_plugin_bundle stC4 "billing" = some bC4 ∧
    (bC4.contract.struct_errors = [] ∧ bC4.contract.dep_errors = []) :=
  ⟨rfl, C4_validation_never_available envC4 fixedFactory "billing" bC4 rfl⟩

/-- C3: in every manager state whose available plugins all have a
registered contract (an invariant of every reachable state, since
_create_plugin_bundle registers bundle and contract together and
reload_plugins clears both), get_coordinator_tools returns exactly
len(available) + 1 handles; position by position, invoking the handle of
plugin P yields P's own name, and the one extra finalize handle yields
"final". -/
theorem C3_coordinator_tools (st : ManagerState)
    (h : ∀ n ∈ get_available_plugins st, (dictGet n st.plugin_contracts).isSome = true) :
    ∃ ts, get_coordinator_tools st = Except.ok ts ∧
      ts.length = (get_available_plugins st).length + 1 ∧
      ts.map CoordTool.invoke = get_available_plugins st ++ ["final"] := by
  rcases goto_tools_ok st.plugin_contracts (get_available_plugins st) h with ⟨gs, hg, hmap⟩
  refine ⟨gs ++ [finalize_tool], ?_, ?_, ?_⟩
  · unfold get_coordinator_tools
    rw [hg]
  · have hlen : gs.length = (get_available_plugins st).length := by
      have hc := congrArg List.length hmap
      simpa using hc
    simp [hlen]
  · rw [List.map_append, hmap]
    rfl

/-- C3 witness: the theorem applied to the state holding the three plugins
alpha, beta, gamma. -/
theorem C3_coordinator_tools_witness :
    (∀ n ∈ get_available_plugins stC3, (dictGet n stC3.plugin_contracts).isSome = true) ∧
    (∃ ts, get_coordinator_tools stC3 = Except.ok ts ∧
      ts.length = (get_available_plugins stC3).length + 1 ∧
      ts.map CoordTool.invoke = get_available_plugins stC3 ++ ["final"]) :=
  ⟨by decide, C3_coordinator_tools stC3 (by decide)⟩

/-- C5 counterexample: the claim asserts that model binding
(agent.bind_model) precedes tool collection (agent.get_tools) in every
successful construction. On the concrete fully-successful contract the
construction trace has getTools strictly before bindModel and not the
other way round (source lines 192-193 call get_tools() first), refuting
the claimed order. -/
theorem C5_counterexample :
    constructOk fixedFactory (goodContract "alpha" "cA" "first duty") = true ∧
    beforeIn PhaseEvent.getTools PhaseEvent.bindModel
      (create_plugin_bundle fixedFactory initState
        (goodContract "alpha" "cA" "first duty")).2.2 = true ∧
    beforeIn PhaseEvent.bindModel PhaseEvent.getTools
      (create_plugin_bundle fixedFactory initState
        (goodContract "alpha" "cA" "first duty")).2.2 = false := by
  refine ⟨by decide, by decide, by decide⟩

/-- C5 (amended): for every successfully constructed plugin the phases run
in the order: structural validation, dependency validation, agent
instantiation, model-configuration resolution, base-model creation, tool
collection (get_tools), THEN agent.bind_model, then agent initialization,
then bundle construction — binding precedes initialization but follows
tool collection. -/
theorem C5_phase_order (f : LLMModelFactory) (st : ManagerState)
    (c : PluginContract) (h : (create_plugin_bundle f st c).1 = true) :
    (create_plugin_bundle f st c).2.2 = fullPhaseTrace := by
  rw [create_fst] at h
  rw [create_trace]
  exact constructTrace_of_ok h

/-- C5 witness: the amended phase-order theorem applied to a concrete
successful construction. -/
theorem C5_phase_order_witness :
    (create_plugin_bundle fixedFactory initState
      (goodContract "beta" "cB" "second duty")).1 = true ∧
    (create_plugin_bundle fixedFactory initState
      (goodContract "beta" "cB" "second duty")).2.2 = fullPhaseTrace :=
  ⟨by decide, C5_phase_order fixedFactory initState _ (by decide)⟩

/-- C6: when two contracts A and B in the same discovery pass declare the
same metadata name n, with B processed after A and no later contract
reusing n, and both construct successfully, get_plugin_bundle n afterwards
returns the bundle built from B (last-registered wins) and
get_available_plugins lists n exactly once. -/
theorem C6_duplicate_last_wins (f : LLMModelFactory) (pk : List (String × Bool))
    (xs ys zs : List PluginContract) (A B : PluginContract) (n : String)
    (hA : A.metadata.name = n) (hB : B.metadata.name = n)
    (hokA : constructOk f A = true) (hokB : constructOk f B = true)
    (hzs : ∀ c ∈ zs, c.metadata.name ≠ n) :
    ((get_plugin_bundle
        (discover_and_load_plugins ⟨pk, xs ++ A :: (ys ++ B :: zs)⟩ f initState) n).map
      (fun b => b.contract) = some B) ∧
    (get_available_plugins
        (discover_and_load_plugins ⟨pk, xs ++ A :: (ys ++ B :: zs)⟩ f initState)).count n
      = 1 := by
  have hsplit : xs ++ A :: (ys ++ B :: zs) = (xs ++ A :: ys) ++ B :: zs := by
    simp [List.append_assoc]
  unfold discover_and_load_plugins get_plugin_bundle get_available_plugins
  rw [hsplit, load_contracts_append, load_contracts_cons]
  rcases create_ok (load_contracts f
      (load_plugin_packages ⟨pk, (xs ++ A :: ys) ++ B :: zs⟩ initState)
      (xs ++ A :: ys)) hokB with ⟨bdl, hbc, _, _, heq⟩
  have hget : dictGet n (load_contracts f (create_plugin_bundle f
      (load_contracts f (load_plugin_packages ⟨pk, (xs ++ A :: ys) ++ B :: zs⟩ initState)
        (xs ++ A :: ys)) B).2.1 zs).plugin_bundles = some bdl := by
    rw [load_contracts_get_ne zs hzs, heq]
    show dictGet n (dictInsert B.metadata.name bdl _) = some bdl
    rw [hB]
    exact dictGet_insert_self _ _ _
  constructor
  · rw [hget]
    simp [hbc]
  · have hnodup : (dictKeys (load_contracts f (create_plugin_bundle f
        (load_contracts f (load_plugin_packages ⟨pk, (xs ++ A :: ys) ++ B :: zs⟩ initState)
          (xs ++ A :: ys)) B).2.1 zs).plugin_bundles).Nodup := by
      apply load_contracts_keys_nodup
      apply create_keys_nodup
      apply load_contracts_keys_nodup
      rw [(load_packages_proj _ initState).1]
      simp [initState, dictKeys]
    exact List.count_eq_one_of_mem hnodup (mem_dictKeys_of_get hget)

/-- C6 witness: the duplicate-name theorem applied to two concrete
successful "billing" contracts. -/
theorem C6_duplicate_last_wins_witness :
    constructOk fixedFactory (goodContract "billing" "firstC" "d1") = true ∧
    constructOk fixedFactory (goodContract "billing" "secondC" "d2") = true ∧
    ((get_plugin_bundle
        (discover_and_load_plugins
          ⟨[], [goodContract "billing" "firstC" "d1", goodContract "billing" "secondC" "d2"]⟩
          fixedFactory initState) "billing").map
      (fun b => b.contract) = some (goodContract "billing" "secondC" "d2")) ∧
    (get_available_plugins
        (discover_and_load_plugins
          ⟨[], [goodContract "billing" "firstC" "d1", goodContract "billing" "secondC" "d2"]⟩
          fixedFactory initState)).count "billing" = 1 := by
  have h := C6_duplicate_last_wins fixedFactory [] [] [] []
    (goodContract "billing" "firstC" "d1") (goodContract "billing" "secondC" "d2")
    "billing" rfl rfl (by decide) (by decide) (by simp)
  exact ⟨by decide, by decide, h.1, h.2⟩

/-- C7 counterexample: the claim asserts that a contract whose metadata
name collides with an already-registered bundle fails construction and the
prior bundle is kept. On the code, with a "billing" bundle (from the
contract tagged firstC) already registered, constructing a second contract
with the same metadata name (tagged secondC) returns True and the
registered bundle is replaced by one built from the second contract. -/
theorem C7_counterexample :
    ((get_plugin_bundle stC7a "billing").map (fun b => b.contract.cname) =
      some "firstC") ∧
    (create_plugin_bundle fixedFactory stC7a
      (goodContract "billing" "secondC" "d2")).1 = true ∧
    ((get_plugin_bundle
        (create_plugin_bundle fixedFactory stC7a
          (goodContract "billing" "secondC" "d2")).2.1 "billing").map
      (fun b => b.contract.cname) = some "secondC") := by
  refine ⟨by decide, by decide, by decide⟩

/-- C7 (amended): a duplicate metadata name is not a construction error:
the colliding contract constructs successfully (returns True) and its
bundle overwrites the prior one under that name (last-registered wins),
while the bundle map's keys remain unique. -/
theorem C7_amended_overwrite (f : LLMModelFactory) (st : ManagerState)
    (c : PluginContract) (hok : constructOk f c = true)
    (hnodup : (dictKeys st.plugin_bundles).Nodup) :
    (create_plugin_bundle f st c).1 = true ∧
    ((get_plugin_bundle (create_plugin_bundle f st c).2.1 c.metadata.name).map
      (fun b => b.contract) = some c) ∧
    (dictKeys (create_plugin_bundle f st c).2.1.plugin_bundles).Nodup := by
  rcases create_ok st hok with ⟨bdl, hbc, _, _, heq⟩
  refine ⟨?_, ?_, create_keys_nodup hnodup⟩
  · rw [create_fst]
    exact hok
  · unfold get_plugin_bundle
    rw [heq]
    show (dictGet c.metadata.name
      (dictInsert c.metadata.name bdl st.plugin_bundles)).map _ = some c
    rw [dictGet_insert_self]
    simp [hbc]

/-- C7 witness: the amended overwrite theorem applied to the second
concrete "billing" contract against the state already holding the first. -/
theorem C7_amended_overwrite_witness :
    constructOk fixedFactory (goodContract "billing" "secondC" "d2") = true ∧
    (dictKeys stC7a.plugin_bundles).Nodup ∧
    ((create_plugin_bundle fixedFactory stC7a
        (goodContract "billing" "secondC" "d2")).1 = true ∧
     ((get_plugin_bundle
         (create_plugin_bundle fixedFactory stC7a
           (goodContract "billing" "secondC" "d2")).2.1
         (goodContract "billing" "secondC" "d2").metadata.name).map
       (fun b => b.contract) = some (goodContract "billing" "secondC" "d2")) ∧
     (dictKeys (create_plugin_bundle fixedFactory stC7a
         (goodContract "billing" "secondC" "d2")).2.1.plugin_bundles).Nodup) :=
  ⟨by decide, by decide,
   C7_amended_overwrite fixedFactory stC7a (goodContract "billing" "secondC" "d2")
     (by decide) (by decide)⟩

/-- C8: failure isolation in a discovery pass: removing a
construction-failing contract from the discovered list leaves the
resulting manager state unchanged (so the failing contract affects nothing
else in the pass), and every contract in the pass that constructs
successfully has its name among the available plugins regardless of the
failing contract's presence. The pass itself is a total function: the
failure of one contract never raises past discover_and_load_plugins. -/
theorem C8_failure_isolation (f : LLMModelFactory) (pk : List (String × Bool))
    (xs ys : List PluginContract) (a : PluginContract)
    (hfail : constructOk f a = false) :
    discover_and_load_plugins ⟨pk, xs ++ a :: ys⟩ f initState =
      discover_and_load_plugins ⟨pk, xs ++ ys⟩ f initState ∧
    ∀ b ∈ xs ++ ys, constructOk f b = true →
      b.metadata.name ∈
        get_available_plugins
          (discover_and_load_plugins ⟨pk, xs ++ a :: ys⟩ f initState) := by
  have henv : load_plugin_packages ⟨pk, xs ++ a :: ys⟩ initState =
      load_plugin_packages ⟨pk, xs ++ ys⟩ initState := rfl
  constructor
  · show load_contracts f (load_plugin_packages ⟨pk, xs ++ a :: ys⟩ initState)
        (xs ++ a :: ys) =
      load_contracts f (load_plugin_packages ⟨pk, xs ++ ys⟩ initState) (xs ++ ys)
    rw [← henv, load_contracts_append, load_contracts_append, load_contracts_cons,
      create_fail _ hfail]
  · intro b hb hok
    have hb₁ : b ∈ xs ++ a :: ys := by
      rcases List.mem_append.mp hb with h₁ | h₂
      · exact List.mem_append.mpr (Or.inl h₁)
      · exact List.mem_append.mpr (Or.inr (List.mem_cons_of_mem _ h₂))
    exact load_contracts_mem_of_ok _ _ b hb₁ hok

/-- C8 witness: the isolation theorem applied to a pass holding a good
plugin, the dependency-failing contract, and another good plugin. -/
theorem C8_failure_isolation_witness :
    constructOk fixedFactory depFailContract = false ∧
    (discover_and_load_plugins
        ⟨[], [goodContract "w1" "c1" "dw"] ++ depFailContract :: [goodContract "w2" "c2" "dw"]⟩
        fixedFactory initState =
      discover_and_load_plugins
        ⟨[], [goodContract "w1" "c1" "dw"] ++ [goodContract "w2" "c2" "dw"]⟩
        fixedFactory initState) ∧
    "w2" ∈ get_available_plugins
      (discover_and_load_plugins
        ⟨[], [goodContract "w1" "c1" "dw"] ++ depFailContract :: [goodContract "w2" "c2" "dw"]⟩
        fixedFactory initState) := by
  have h := C8_failure_isolation fixedFactory [] [goodContract "w1" "c1" "dw"]
    [goodContract "w2" "c2" "dw"] depFailContract (by decide)
  refine ⟨by decide, h.1, ?_⟩
  exact h.2 (goodContract "w2" "c2" "dw")
    (List.mem_append_right _ (List.mem_cons_self _ _)) (by decide)

/-- C9: reload_plugins is a full reset: the post-reload state is exactly
the state produced by running the new discovery pass and health sweep from
a manager whose collections are empty (no name or object from before the
call survives), and — assuming the ghost allocation invariant that every
pre-reload bundle's stamp is below the allocation counter — every bundle
registered after the reload carries a stamp at or above the pre-reload
counter, hence is a freshly constructed object distinct from every
pre-reload bundle. -/
theorem C9_reload_fresh (env : DiscoveryEnv) (f : LLMModelFactory)
    (st : ManagerState) (hbid : ∀ p ∈ st.plugin_bundles, p.2.bid < st.next_id) :
    reload_plugins env f st =
      reload_plugins env f { initState with next_id := st.next_id } ∧
    ∀ p ∈ (reload_plugins env f st).plugin_bundles,
      st.next_id ≤ p.2.bid ∧ ∀ q ∈ st.plugin_bundles, p.2 ≠ q.2 := by
  constructor
  · rfl
  · intro p hp
    have hp₁ : p ∈ (discover_and_load_plugins env f (clearedState st)).plugin_bundles := by
      unfold reload_plugins at hp
      rwa [(perform_health_checks_proj _).1] at hp
    have hlb := load_contracts_bid_lb env.contracts
      (load_plugin_packages env (clearedState st)) p hp₁
    rcases hlb with hmem | hle
    · rw [(load_packages_proj env (clearedState st)).1] at hmem
      simp [clearedState] at hmem
    · have hnext : (load_plugin_packages env (clearedState st)).next_id = st.next_id :=
        (load_packages_proj env (clearedState st)).2.2.2
      rw [hnext] at hle
      refine ⟨hle, ?_⟩
      intro q hq hpq
      have hlt := hbid q hq
      rw [← hpq] at hlt
      exact Nat.lt_irrefl _ (Nat.lt_of_le_of_lt hle hlt)

/-- C9 witness: the reload theorem applied to the concrete one-plugin
state; the pre-reload bundle carries stamp 0, the reloaded one stamp 1. -/
theorem C9_reload_fresh_witness :
    (∀ p ∈ stC9.plugin_bundles, p.2.bid < stC9.next_id) ∧
    reload_plugins envC9 fixedFactory stC9 =
      reload_plugins envC9 fixedFactory { initState with next_id := stC9.next_id } ∧
    stC9.plugin_bundles.map (fun p => p.2.bid) = [0] ∧
    (reload_plugins envC9 fixedFactory stC9).plugin_bundles.map (fun p => p.2.bid) = [1] :=
  ⟨by decide, (C9_reload_fresh envC9 fixedFactory stC9 (by decide)).1,
   by decide, by decide⟩

end EchoCore
